import Mathlib

/-!
Verification of the D-statistic (ABBA-BABA) analysis module `ipyrad/analysis/baba.py`
against its natural-language specification.

The Python module is shallowly embedded: numpy float arrays become lists of
rationals (`ℚ`), numpy's pseudo-random draws become explicit draw functions,
exceptions become `Except String`, and `np.NaN` entries become `none` in an
`Option ℚ`.  Each definition carries a comment naming the source function and
lines it embeds.
-/

namespace BabaSpec

/-- One locus of a frequency tensor: the list of population-slot rows
(`arr[loc, slot, :]` in the source), each row a list of per-site
derived-allele frequencies. -/
abbrev Locus := List (List ℚ)

/-- A frequency tensor `arr` of shape `(nloci, nslots, nsites)`:
a list of loci. -/
abbrev Tensor := List Locus

/-- Entry `arr[loc][slot][site]`; out-of-range indices default to `0`
(numpy tensors are rectangular, so defaults model the zero padding the
encoder writes into unused positions). -/
def fEntry (l : Locus) (j s : ℕ) : ℚ := (l.getD j []).getD s 0

/-- Site width of one locus: maximal row length. -/
def locusWidth (l : Locus) : ℕ := (l.map List.length).foldr Nat.max 0

/-- `arr.shape[2]`: the site dimension of the tensor. -/
def shape2 (arr : Tensor) : ℕ := (arr.map locusWidth).foldr Nat.max 0

/-- `arr.shape[1]`: the population-slot dimension of the tensor. -/
def shape1 (arr : Tensor) : ℕ := (arr.map List.length).foldr Nat.max 0

/-- Per-site ABBA weight, from `_prop_dstat` (baba.py line 606):
`(1.-arr[:, 0]) * (arr[:, 1]) * (arr[:, 2]) * (1.-arr[:, 3])`. -/
def abbaSite (f1 f2 f3 f4 : ℚ) : ℚ := (1 - f1) * f2 * f3 * (1 - f4)

/-- Per-site BABA weight, from `_prop_dstat` (baba.py line 607):
`(arr[:, 0]) * (1.-arr[:, 1]) * (arr[:, 2]) * (1.-arr[:, 3])`. -/
def babaSite (f1 f2 f3 f4 : ℚ) : ℚ := f1 * (1 - f2) * f3 * (1 - f4)

/-- Sum of the ABBA weights of one locus over all `n` site columns. -/
def locusABBA (n : ℕ) (l : Locus) : ℚ :=
  ((List.range n).map (fun s =>
    abbaSite (fEntry l 0 s) (fEntry l 1 s) (fEntry l 2 s) (fEntry l 3 s))).sum

/-- Sum of the BABA weights of one locus over all `n` site columns. -/
def locusBABA (n : ℕ) (l : Locus) : ℚ :=
  ((List.range n).map (fun s =>
    babaSite (fEntry l 0 s) (fEntry l 1 s) (fEntry l 2 s) (fEntry l 3 s))).sum

/-- Embedding of `_prop_dstat` (baba.py lines 602-618): returns
`(abba.sum(), baba.sum(), dstat)` where `dstat = top.sum()/bot.sum()`
unless `bot.sum()` is zero, in which case `dstat = 0`. -/
def prop_dstat (arr : Tensor) : ℚ × ℚ × ℚ :=
  let n := shape2 arr
  let abba := (arr.map (locusABBA n)).sum
  let baba := (arr.map (locusBABA n)).sum
  (abba, baba, if abba + baba ≠ 0 then (abba - baba) / (abba + baba) else 0)

/-- Spec-side definition, following the words of the spec (§4.2): per site
`ABBA = (1−f1)·f2·f3·(1−f4)`, "summed over all sites and loci". -/
def specABBA (arr : Tensor) : ℚ :=
  ∑ i ∈ Finset.range arr.length, ∑ s ∈ Finset.range (shape2 arr),
    abbaSite (fEntry (arr.getD i []) 0 s) (fEntry (arr.getD i []) 1 s)
      (fEntry (arr.getD i []) 2 s) (fEntry (arr.getD i []) 3 s)

/-- Spec-side definition, following the words of the spec (§4.2): per site
`BABA = f1·(1−f2)·f3·(1−f4)`, "summed over all sites and loci". -/
def specBABA (arr : Tensor) : ℚ :=
  ∑ i ∈ Finset.range arr.length, ∑ s ∈ Finset.range (shape2 arr),
    babaSite (fEntry (arr.getD i []) 0 s) (fEntry (arr.getD i []) 1 s)
      (fEntry (arr.getD i []) 2 s) (fEntry (arr.getD i []) 3 s)

/-- Spec-side definition of the D statistic (§4.2):
`D = (ΣABBA − ΣBABA) / (ΣABBA + ΣBABA)`, and `D := 0` if the denominator
is exactly zero. -/
def specD (arr : Tensor) : ℚ :=
  if specABBA arr + specBABA arr = 0 then 0
  else (specABBA arr - specBABA arr) / (specABBA arr + specBABA arr)

/-- Swap of the `p1` and `p2` frequency rows (slots 0 and 1) of one locus. -/
def swapLocus : Locus → Locus
  | a :: b :: t => b :: a :: t
  | l => l

/-- Embedding of `_get_boots` (baba.py lines 622-639).  The pseudo-random
source behind `np.random.randint(0, arr.shape[0], arr.shape[0])` is modelled
as an explicit draw function `draws : replicate → position → ℕ`, reduced
`mod arr.shape[0]` so every drawn index lies in `[0, nloci)` exactly as
`randint` guarantees.  `tarr = arr[lidx]` resamples whole loci with
replacement and the D statistic is recomputed on each resample. -/
def get_boots (arr : Tensor) (draws : ℕ → ℕ → ℕ) (nboots : ℕ) : List ℚ :=
  (List.range nboots).map (fun b =>
    let lidx := (List.range arr.length).map (fun k => draws b k % arr.length)
    (prop_dstat (lidx.map (fun i => arr.getD i []))).2.2)

/-- `boots.mean()`: sum over length. -/
def listMean (xs : List ℚ) : ℚ := xs.sum / (xs.length : ℚ)

/-- The square of `boots.std()`: numpy's population variance (`ddof = 0`,
mean of squared deviations).  The standard deviation itself is the square
root of this value; since square roots leave ℚ, the engine embeddings take
the square-root map as an explicit parameter `sq` and compute
`std = sq (listVar boots)`. -/
def listVar (xs : List ℚ) : ℚ :=
  ((xs.map (fun x => (x - listMean xs) ^ 2)).sum) / (xs.length : ℚ)

/-- `sq` behaves as the (nonnegative) square root at the point `x`. -/
def sqrtOk (sq : ℚ → ℚ) (x : ℚ) : Prop := 0 ≤ sq x ∧ sq x ^ 2 = x

/-- Embedding of `_get_signif_4` (baba.py lines 643-656): the stats row
`[dstat, bootmean, bootstd, z, abba, baba, nloci]` and the boots vector,
with `z = |e| / s` when `s` is nonzero (`if s:`) and `0.` otherwise. -/
def get_signif_4 (sq : ℚ → ℚ) (arr : Tensor) (draws : ℕ → ℕ → ℕ)
    (nboots : ℕ) : List ℚ × List ℚ :=
  let t := prop_dstat arr
  let boots := get_boots arr draws nboots
  let e := listMean boots
  let s := sq (listVar boots)
  let z := if s ≠ 0 then |e| / s else 0
  ([t.2.2, e, s, z, t.1, t.2.1, (arr.length : ℚ)], boots)

/-- The column sub-selection `arr[:, [0, 1, acol, 5], :]` performed for each
donor branch inside `_get_signif_5` (baba.py lines 671-673). -/
def sub5 (arr : Tensor) (acol : ℕ) : Tensor :=
  arr.map (fun l => [l.getD 0 [], l.getD 1 [], l.getD acol [], l.getD 5 []])

/-- One donor-branch row of `_get_signif_5` (baba.py lines 671-686): the
stats row `[dstat, e, s, abxa, baxa, z]` (entries as `Option ℚ`, with `none`
standing for `np.NaN`) and the boots vector.  Note the source computes
`z = np.abs(dstat) / s` here — from the full-data statistic, not the
bootstrap mean — and sets `z = np.NaN` when `s` is zero. -/
def signif5Row (sq : ℚ → ℚ) (arr : Tensor) (draws : ℕ → ℕ → ℕ)
    (nboots : ℕ) (acol : ℕ) : List (Option ℚ) × List ℚ :=
  let tarr := sub5 arr acol
  let t := prop_dstat tarr
  let boots := get_boots tarr draws nboots
  let e := listMean boots
  let s := sq (listVar boots)
  let z : Option ℚ := if s ≠ 0 then some (|t.2.2| / s) else none
  ([some t.2.2, some e, some s, some t.1, some t.2.1, z], boots)

/-- Embedding of `_get_signif_5` (baba.py lines 660-688): a 3-row statistics
array (one row per donor branch, `acol ∈ [2, 3, 4]`) and the 3 × nboots
boots array.  Each branch consumes its own stream of random draws. -/
def get_signif_5 (sq : ℚ → ℚ) (arr : Tensor) (draws : ℕ → ℕ → ℕ → ℕ)
    (nboots : ℕ) : List (List (Option ℚ)) × List (List ℚ) :=
  ([(signif5Row sq arr (draws 0) nboots 2).1,
    (signif5Row sq arr (draws 1) nboots 3).1,
    (signif5Row sq arr (draws 2) nboots 4).1],
   [(signif5Row sq arr (draws 0) nboots 2).2,
    (signif5Row sq arr (draws 1) nboots 3).2,
    (signif5Row sq arr (draws 2) nboots 4).2])

/-- The site column `arr[loc, :, site]` of one locus (`nslots = arr.shape[1]`). -/
def colAt (nslots : ℕ) (l : Locus) (s : ℕ) : List ℚ :=
  (List.range nslots).map (fun j => fEntry l j s)

/-- The site columns of one locus kept by `masknulls` (baba.py lines
550-560), left-packed: a column is dropped when it contains the sentinel 9
(`np.any(col == 9)`), and kept only when some non-outgroup slot differs from
slot 0 (`np.any(col[:-1] != col[0])`). -/
def keptCols (nslots n : ℕ) (l : Locus) : List (List ℚ) :=
  (List.range n).filterMap (fun s =>
    let c := colAt nslots l s
    if (!c.any (fun x => decide (x = 9)))
        && c.dropLast.any (fun x => decide (x ≠ c.getD 0 0)) then
      some c
    else none)

/-- Transposition of a locus's kept columns back to slot rows, zero-padded
on the right to `maxnv` sites (`trimarr[loc, :, :nvars] = ...` writes into a
zero array). -/
def outLocus (nslots maxnv : ℕ) (cols : List (List ℚ)) : Locus :=
  (List.range nslots).map (fun j =>
    (List.range maxnv).map (fun s => (cols.getD s []).getD j 0))

/-- Embedding of `masknulls` (baba.py lines 546-562).  The final trim
`trimarr[:, :, :nvarr.max()]` reduces `nvarr` (one entry per locus) with
`max`; on a zero-locus array this is a reduction over a zero-size array and
numpy/numba raise `ValueError`, modelled as `Except.error`. -/
def masknulls (arr : Tensor) : Except String Tensor :=
  let nslots := shape1 arr
  let n := shape2 arr
  let kept := arr.map (fun l => keptCols nslots n l)
  if kept.isEmpty then
    Except.error "zero-size array to reduction operation maximum which has no identity"
  else
    Except.ok (kept.map (fun cols =>
      outLocus nslots ((kept.map List.length).foldr Nat.max 0) cols))

/-- A concrete single-locus 5-taxon tensor (6 slots, 1 site): slot values
`p1=1, p2=0, p3=1, p4=0, p3∪p4=1, p5=0`. -/
def cexArr5 : Tensor := [[[1], [0], [1], [0], [1], [0]]]

/-- A concrete single-locus 4-taxon tensor (4 slots, 1 site). -/
def wArr4 : Tensor := [[[1], [0], [1], [0]]]

/-- A concrete all-zero single-locus 4-taxon tensor: its ABBA and BABA sums
are both zero, exercising the zero-denominator branch. -/
def zeroArr4 : Tensor := [[[0], [0], [0], [0]]]

/-- The seven column labels `dstat` attaches to the 5-taxon statistics
table (baba.py lines 349-352). -/
def dstat5_columns : List String :=
  ["Dstat", "bootmean", "bootstd", "Z", "ABxxA", "BAxxA", "nloci"]

/-- pandas `DataFrame(data, index=..., columns=...)` shape check: building
a frame whose data rows do not have exactly one entry per column label
raises `ValueError` (shape of passed values vs. implied indices). -/
def mkDataFrame (cols : List String) (rows : List (List (Option ℚ))) :
    Except String (List (List (Option ℚ))) :=
  if rows.all (fun r => r.length == cols.length) then Except.ok rows
  else Except.error "Shape of passed values does not match implied indices"

/-- The 5-taxon branch of `dstat` (baba.py lines 344-354): run
`_get_signif_5`, then label the statistics array with the seven column
names of `dstat5_columns` while building the results DataFrame. -/
def dstat5 (sq : ℚ → ℚ) (arr : Tensor) (draws : ℕ → ℕ → ℕ → ℕ)
    (nboots : ℕ) :
    Except String (List (List (Option ℚ)) × List (List ℚ)) :=
  (mkDataFrame dstat5_columns (get_signif_5 sq arr draws nboots).1).map
    (fun frame => (frame, (get_signif_5 sq arr draws nboots).2))

/-- Site capacity preallocated per locus by `_loci_to_arr` (baba.py lines
371-373: `arr = np.zeros((nloci, 4, 300))`, resp. `(nloci, 6, 300)`). -/
def lociArrSiteCap : ℕ := 300

/-- numpy slice assignment `row[:iseq.length] = iseq` into a preallocated
row: the left-hand slice has length `min iseq.length row.length`, so the
assignment broadcasts only when `iseq.length ≤ row.length`; otherwise numpy
raises `ValueError` (cannot broadcast the input array into the slice). -/
def sliceAssign (row iseq : List ℚ) : Except String (List ℚ) :=
  if iseq.length ≤ row.length then Except.ok (iseq ++ row.drop iseq.length)
  else Except.error "could not broadcast input array"

/-- One row write of the encoder, `arr[loc, tidx, :iseq.shape[1]] = iseq`
(baba.py lines 414 and 428), into the 300-site preallocated zero row. -/
def lociRowWrite (iseq : List ℚ) : Except String (List ℚ) :=
  sliceAssign (List.replicate lociArrSiteCap 0) iseq

/-- Resolution of one base through the consensus table `consdict`
(`GETCONS2`): the first row whose column 0 matches the base yields the two
resolved copies (columns 1 and 2); a base matching no row is entered as its
own two copies (`_reffreq2`, baba.py lines 573-587). -/
def resolveBase (consdict : List (ℕ × ℕ × ℕ)) (base : ℕ) : ℕ × ℕ :=
  match consdict.find? (fun c => c.1 == base) with
  | none => (base, base)
  | some c => (c.2.1, c.2.2)

/-- Embedding of `_reffreq2` (baba.py lines 566-598): per site, the two
resolved copies of every sample are pooled, entries equal to 9 (N or -) are
masked, and the derived-allele frequency is the share of the remaining
copies differing from the ancestral call; sites whose copies are all masked
get the sentinel 9.  The site count is taken from the ancestral row, which
at every call site equals `iseq.shape[1]`. -/
def reffreq2 (ancestral : List ℕ) (iseq : List (List ℕ))
    (consdict : List (ℕ × ℕ × ℕ)) : List ℚ :=
  (List.range ancestral.length).map (fun i =>
    let reduced := ((iseq.map (fun srow =>
        resolveBase consdict (srow.getD i 0))).flatMap
      (fun p => [p.1, p.2])).filter (fun x => decide (x ≠ 9))
    if reduced.length ≠ 0 then
      ((reduced.filter (fun x => decide (x ≠ ancestral.getD i 0))).length : ℚ)
        / (reduced.length : ℚ)
    else 9)

/-- Outcome of one submitted dstat job as observed through its async
handle: `Except.error` models a handle whose `successful()` is false,
carrying the exception text; `Except.ok` carries the
`(statistic row, boots row)` result. -/
abbrev JobOutcome := Except String (List ℚ × List ℚ)

/-- The message of `IPyradWarningExit(" error: {}: {}".format(job,
asyncs[job].exception()))` (baba.py lines 269-270). -/
def jobErrString (j : ℕ) (msg : String) : String :=
  " error: " ++ toString j ++ ": " ++ msg

/-- Embedding of the result-collection loop of `batch` (baba.py lines
262-286).  `order` is the sequence in which handles are observed ready (the
actual order is nondeterministic).  Each ready handle is checked for
failure — a failed job aborts the whole batch with an error naming the job
index and its exception — and otherwise its result is copied into row
`job` of `resarr` / `bootsarr` and the handle dropped. -/
def batchCollect (outcomes : List JobOutcome) (order : List ℕ)
    (resarr bootsarr : List (List ℚ)) :
    Except String (List (List ℚ) × List (List ℚ)) :=
  match order with
  | [] => Except.ok (resarr, bootsarr)
  | j :: rest =>
      match outcomes.getD j (Except.error "missing") with
      | Except.error msg => Except.error (jobErrString j msg)
      | Except.ok pr =>
          batchCollect outcomes rest (resarr.set j pr.1) (bootsarr.set j pr.2)

/-- A TaxonAssignment ("test"): population label to sample names. -/
abbrev TaxDict := List (String × List String)

/-- The allowed population labels (baba.py line 382). -/
def allowed_names : List String := ["p1", "p2", "p3", "p4", "p5"]

/-- The key validation of `_loci_to_arr` (baba.py lines 381-385), executed
inside the submitted dstat job after the locus file has been read: if any
key of the taxdict lies outside `allowed_names`, `IPyradError` is raised. -/
def taxdictKeyCheck (taxdict : TaxDict) : Except String Unit :=
  if (taxdict.map Prod.fst).any (fun i => !(allowed_names.contains i)) then
    Except.error "keys in taxdict must be named p1 through p4 or p5"
  else Except.ok ()

/-- The submission loop of `batch` (baba.py lines 244-260): one dstat job
`(handle, test, mindict, nboots)` is submitted per test, keyed by
submission index, with no validation of the test's keys anywhere between
argument parsing and submission. -/
def batchSubmit (handle : String) (taxdicts : List TaxDict)
    (mindict nboots : ℕ) : List (ℕ × (String × TaxDict × ℕ × ℕ)) :=
  (List.range taxdicts.length).map
    (fun i => (i, (handle, taxdicts.getD i [], mindict, nboots)))

/-- A concrete malformed TaxonAssignment: key `px` is not allowed. -/
def badTaxDict : TaxDict :=
  [("p1", ["a"]), ("p2", ["b"]), ("p3", ["c"]), ("px", ["d"])]

/-- Lexicographic comparison of code-point lists. -/
def listLeN : List ℕ → List ℕ → Bool
  | [], _ => true
  | _ :: _, [] => false
  | a :: as, b :: bs =>
      if a < b then true else if b < a then false else listLeN as bs

/-- String order by code points, as Python (and hence pandas `sort_index`)
compares test-name strings. -/
def strLe (a b : String) : Bool :=
  listLeN (a.data.map Char.toNat) (b.data.map Char.toNat)

/-- Insertion into an ascending list under `le`. -/
def insertSorted {α : Type} (le : α → α → Bool) (x : α) : List α → List α
  | [] => [x]
  | y :: ys => if le x y then x :: y :: ys else y :: insertSorted le x ys

/-- Insertion sort (ascending under `le`); embeds the row reordering of
`DataFrame.sort_index()` (stability is irrelevant: test names are
distinct). -/
def sortBy {α : Type} (le : α → α → Bool) (l : List α) : List α :=
  l.foldr (insertSorted le) []

/-- The result-finalization step of `batch` (baba.py lines 300-311): the
results table (index `names`, one row per submitted test) is sorted by
index (`resarr = resarr.sort_index()`), then
`order = [list(resarr.index).index(i) for i in names]` and
`bootsarr = bootsarr[order]`.  Returns
`((sorted index, sorted table rows), permuted boots rows)`. -/
def batchFinalize (names : List String) (resRows bootsRows : List (List ℚ)) :
    (List String × List (List ℚ)) × List (List ℚ) :=
  let sorted := sortBy (fun a b => strLe a.1 b.1) (names.zip resRows)
  let sortedNames := sorted.map Prod.fst
  let order := names.map (fun i => sortedNames.indexOf i)
  ((sortedNames, sorted.map Prod.snd), order.map (fun j => bootsRows.getD j []))

/-- Spec-side definition of the alignment the claim requires: the boots
rows permuted identically to the table rows, i.e. row `k` of the returned
boots matrix is the boots row of the test whose name sits at position `k`
of the sorted index. -/
def specAlignedBoots (names : List String) (bootsRows : List (List ℚ)) :
    List (List ℚ) :=
  (sortBy strLe names).map (fun x => bootsRows.getD (names.indexOf x) [])

/-- A rooted tree as built by `ete.Tree(newick)`: a node name (leaves carry
their taxon name) and an ordered child list. -/
inductive ETree where
  | mk (name : String) (children : List ETree)

/-- The ordered child list of a node. -/
def ETree.children : ETree → List ETree
  | .mk _ cs => cs

mutual

/-- Total node count of a tree: the number of nodes a full traversal
visits. -/
def ETree.count : ETree → ℕ
  | .mk _ cs => 1 + countList cs

/-- Total node count of a list of trees. -/
def countList : List ETree → ℕ
  | [] => 0
  | t :: ts => ETree.count t + countList ts

end

mutual

/-- `node.get_leaf_names()`: the names of the leaves below the node, left
to right (a childless node is itself a leaf). -/
def ETree.leafNames : ETree → List String
  | .mk n [] => [n]
  | .mk _ (c :: cs) => leafNamesList (c :: cs)

/-- Leaf names of a list of subtrees, concatenated left to right. -/
def leafNamesList : List ETree → List String
  | [] => []
  | t :: ts => ETree.leafNames t ++ leafNamesList ts

end

/-- Breadth-first scan of a queue of subtrees; the first argument counts
the dequeue steps still allowed.  A breadth-first traversal from one node
performs exactly `ETree.count` dequeues, so `levelorder` below loses
nothing by instantiating it so. -/
def bfsAux : ℕ → List ETree → List ETree
  | 0, _ => []
  | _ + 1, [] => []
  | f + 1, t :: ts => t :: bfsAux f (ts ++ t.children)

/-- `node.traverse("levelorder")`, ete3's default traversal: breadth-first
from the node, the node itself included. -/
def levelorder (t : ETree) : List ETree := bfsAux t.count [t]

/-- Embedding of `test_constraint` (baba.py lines 526-541): `names` is the
candidate node's leaf-name set, `const` the constraint set for the tip
label; an empty constraint always passes; exact mode demands set equality
(`names == const`), subset mode containment of `names` in `const`
(`len(names ∩ const) == len(names)`). -/
def test_constraint (node : ETree) (cdict : String → List String)
    (tip : String) (exact : Bool) : Bool :=
  let names := node.leafNames
  let const := cdict tip
  if const.isEmpty then true
  else if exact then
    names.all (fun x => const.contains x) && const.all (fun x => names.contains x)
  else
    names.all (fun x => const.contains x)

/-- A generated four-taxon test, in the insertion order of the source's
dict: p4, p3, p2, p1, each mapped to the leaf names of its node. -/
abbrev TreeTest := List (String × List String)

/-- Embedding of `tree2tests` (baba.py lines 479-522).  For every
`topnode` in level order and every child `oparent`, every `onode` of
`oparent`'s subtree passing the p4 constraint takes
`p123parent = oparent.get_sisters()[0]` (IndexError when there is no
sister); for each child `p3parent` of `p123parent`,
`p12parent = p3parent.get_sisters()[0]`, and every `p3node` of
`p3parent`'s subtree passing the p3 constraint reaches
`p1parent, p2parent = p12parent.children` — which is skipped when
`p12parent` has no children (`if p12parent.children:`), and for one child
or more than two children raises ValueError at the tuple unpacking.  With
exactly two children, every `p2node` / `p1node` passing their constraints
emits the test. -/
def tree2tests (tree : ETree) (cdict : String → List String) (exact : Bool) :
    Except String (List TreeTest) :=
  (levelorder tree).foldlM (fun acc topnode =>
    topnode.children.enum.foldlM (fun acc oi =>
      (levelorder oi.2).foldlM (fun acc onode =>
        if test_constraint onode cdict "p4" exact then
          match topnode.children.eraseIdx oi.1 with
          | [] => Except.error "IndexError: list index out of range"
          | p123parent :: _ =>
              p123parent.children.enum.foldlM (fun acc p3i =>
                match p123parent.children.eraseIdx p3i.1 with
                | [] => Except.error "IndexError: list index out of range"
                | p12parent :: _ =>
                    (levelorder p3i.2).foldlM (fun acc p3node =>
                      if test_constraint p3node cdict "p3" exact then
                        match p12parent.children with
                        | [] => Except.ok acc
                        | [p1parent, p2parent] =>
                            (levelorder p2parent).foldlM (fun acc p2node =>
                              if test_constraint p2node cdict "p2" exact then
                                (levelorder p1parent).foldlM (fun acc p1node =>
                                  if test_constraint p1node cdict "p1" exact
                                  then
                                    Except.ok (acc ++
                                      [[("p4", onode.leafNames),
                                        ("p3", p3node.leafNames),
                                        ("p2", p2node.leafNames),
                                        ("p1", p1node.leafNames)]])
                                  else Except.ok acc) acc
                              else Except.ok acc) acc
                        | [_] =>
                            Except.error
                              "ValueError: not enough values to unpack"
                        | _ =>
                            Except.error
                              "ValueError: too many values to unpack"
                      else Except.ok acc) acc) acc
        else Except.ok acc) acc) acc) []

/-- The rooted tree `(((a,b,c),d),(e,f));`: the node `(a,b,c)` plays the
p1/p2-split role (`p12parent`) when the outgroup is drawn from `(e,f)` and
`p3` is `d` — and it has three children. -/
def polyTree : ETree :=
  ETree.mk "root"
    [ETree.mk "P"
      [ETree.mk "W" [ETree.mk "a" [], ETree.mk "b" [], ETree.mk "c" []],
       ETree.mk "d" []],
     ETree.mk "Q" [ETree.mk "e" [], ETree.mk "f" []]]

end BabaSpec

namespace BabaSpec

theorem list_map_sum_getD (l : List Locus) (g : Locus → ℚ) :
    (l.map g).sum = ∑ i ∈ Finset.range l.length, g (l.getD i []) := by
  induction l with
  | nil => simp
  | cons a as ih =>
      simp only [List.map_cons, List.sum_cons, List.length_cons,
        Finset.sum_range_succ', List.getD_cons_succ, List.getD_cons_zero, ih]
      exact add_comm _ _

theorem range_map_sum (n : ℕ) (g : ℕ → ℚ) :
    ((List.range n).map g).sum = ∑ s ∈ Finset.range n, g s := by
  induction n with
  | zero => simp
  | succ m ih => simp [List.range_succ, Finset.sum_range_succ, ih]

theorem locusABBA_eq_sum (n : ℕ) (l : Locus) :
    locusABBA n l = ∑ s ∈ Finset.range n,
      abbaSite (fEntry l 0 s) (fEntry l 1 s) (fEntry l 2 s) (fEntry l 3 s) :=
  range_map_sum n _

theorem locusBABA_eq_sum (n : ℕ) (l : Locus) :
    locusBABA n l = ∑ s ∈ Finset.range n,
      babaSite (fEntry l 0 s) (fEntry l 1 s) (fEntry l 2 s) (fEntry l 3 s) :=
  range_map_sum n _

theorem prop_dstat_abba (arr : Tensor) : (prop_dstat arr).1 = specABBA arr := by
  unfold prop_dstat specABBA
  dsimp only
  rw [list_map_sum_getD]
  exact Finset.sum_congr rfl (fun i _ => locusABBA_eq_sum _ _)

theorem prop_dstat_baba (arr : Tensor) :
    (prop_dstat arr).2.1 = specBABA arr := by
  unfold prop_dstat specBABA
  dsimp only
  rw [list_map_sum_getD]
  exact Finset.sum_congr rfl (fun i _ => locusBABA_eq_sum _ _)

theorem prop_dstat_eq (arr : Tensor) :
    prop_dstat arr = ((arr.map (locusABBA (shape2 arr))).sum,
      (arr.map (locusBABA (shape2 arr))).sum,
      if (arr.map (locusABBA (shape2 arr))).sum
          + (arr.map (locusBABA (shape2 arr))).sum ≠ 0 then
        ((arr.map (locusABBA (shape2 arr))).sum
          - (arr.map (locusBABA (shape2 arr))).sum)
        / ((arr.map (locusABBA (shape2 arr))).sum
          + (arr.map (locusBABA (shape2 arr))).sum)
      else 0) := rfl

theorem nat_max_left_comm (a b c : ℕ) :
    Nat.max a (Nat.max b c) = Nat.max b (Nat.max a c) := by
  simp only [Nat.max_def]
  split_ifs <;> omega

theorem locusWidth_swap (l : Locus) : locusWidth (swapLocus l) = locusWidth l := by
  match l with
  | [] => rfl
  | [a] => rfl
  | a :: b :: t =>
      simp only [swapLocus, locusWidth, List.map_cons, List.foldr_cons]
      exact nat_max_left_comm _ _ _

theorem shape2_swap (arr : Tensor) : shape2 (arr.map swapLocus) = shape2 arr := by
  unfold shape2
  rw [List.map_map]
  congr 1
  exact List.map_congr_left fun l _ => locusWidth_swap l

theorem locusABBA_swap (n : ℕ) (l : Locus) :
    locusABBA n (swapLocus l) = locusBABA n l := by
  match l with
  | [] =>
      simp [swapLocus, locusABBA, locusBABA, abbaSite, babaSite, fEntry]
  | [a] =>
      simp [swapLocus, locusABBA, locusBABA, abbaSite, babaSite, fEntry]
  | a :: b :: t =>
      unfold locusABBA locusBABA
      congr 1
      refine List.map_congr_left fun s _ => ?_
      show abbaSite (fEntry (b :: a :: t) 0 s) (fEntry (b :: a :: t) 1 s)
          (fEntry (b :: a :: t) 2 s) (fEntry (b :: a :: t) 3 s)
        = babaSite (fEntry (a :: b :: t) 0 s) (fEntry (a :: b :: t) 1 s)
          (fEntry (a :: b :: t) 2 s) (fEntry (a :: b :: t) 3 s)
      simp only [fEntry, List.getD_cons_zero, List.getD_cons_succ]
      unfold abbaSite babaSite
      ring

theorem locusBABA_swap (n : ℕ) (l : Locus) :
    locusBABA n (swapLocus l) = locusABBA n l := by
  match l with
  | [] =>
      simp [swapLocus, locusABBA, locusBABA, abbaSite, babaSite, fEntry]
  | [a] =>
      simp [swapLocus, locusABBA, locusBABA, abbaSite, babaSite, fEntry]
  | a :: b :: t =>
      unfold locusABBA locusBABA
      congr 1
      refine List.map_congr_left fun s _ => ?_
      show babaSite (fEntry (b :: a :: t) 0 s) (fEntry (b :: a :: t) 1 s)
          (fEntry (b :: a :: t) 2 s) (fEntry (b :: a :: t) 3 s)
        = abbaSite (fEntry (a :: b :: t) 0 s) (fEntry (a :: b :: t) 1 s)
          (fEntry (a :: b :: t) 2 s) (fEntry (a :: b :: t) 3 s)
      simp only [fEntry, List.getD_cons_zero, List.getD_cons_succ]
      unfold abbaSite babaSite
      ring

theorem map_swap_abba (arr : Tensor) :
    ((arr.map swapLocus).map (locusABBA (shape2 arr))).sum
      = (arr.map (locusBABA (shape2 arr))).sum := by
  rw [List.map_map]
  congr 1
  exact List.map_congr_left fun l _ => locusABBA_swap _ l

theorem map_swap_baba (arr : Tensor) :
    ((arr.map swapLocus).map (locusBABA (shape2 arr))).sum
      = (arr.map (locusABBA (shape2 arr))).sum := by
  rw [List.map_map]
  congr 1
  exact List.map_congr_left fun l _ => locusBABA_swap _ l

/-- **C3.** For every 4-taxon FrequencyTensor, the engine computes per site
`ABBA = (1−f1)·f2·f3·(1−f4)` and `BABA = f1·(1−f2)·f3·(1−f4)` over slots
(0,1,2,3), sums each over all sites and loci, and returns
`D = (ΣABBA − ΣBABA) / (ΣABBA + ΣBABA)`, with `D = 0` whenever the
denominator is exactly zero (defined, never an error). -/
theorem c3_dstat_formula (arr : Tensor) :
    prop_dstat arr = (specABBA arr, specBABA arr, specD arr) := by
  have habba := prop_dstat_abba arr
  have hbaba := prop_dstat_baba arr
  have hd : (prop_dstat arr).2.2 = specD arr := by
    unfold prop_dstat at habba hbaba ⊢
    dsimp only at habba hbaba ⊢
    rw [specD, habba, hbaba]
    by_cases h : specABBA arr + specBABA arr = 0
    · simp [h]
    · simp [h]
  calc prop_dstat arr
      = ((prop_dstat arr).1, (prop_dstat arr).2.1, (prop_dstat arr).2.2) := rfl
    _ = (specABBA arr, specBABA arr, specD arr) := by rw [habba, hbaba, hd]

/-- **C9.** For every 4-taxon FrequencyTensor, swapping the p1 and p2
frequency rows (slots 0 and 1) negates the D-statistic, including the
zero-denominator case where both D values equal 0. -/
theorem c9_swap_negates_dstat (arr : Tensor) :
    (prop_dstat (arr.map swapLocus)).2.2 = -(prop_dstat arr).2.2 ∧
    ((prop_dstat arr).1 + (prop_dstat arr).2.1 = 0 →
      (prop_dstat (arr.map swapLocus)).2.2 = 0 ∧ (prop_dstat arr).2.2 = 0) := by
  rw [prop_dstat_eq arr, prop_dstat_eq (arr.map swapLocus), shape2_swap,
    map_swap_abba, map_swap_baba]
  set A := (arr.map (locusABBA (shape2 arr))).sum with hA
  set B := (arr.map (locusBABA (shape2 arr))).sum with hB
  dsimp only
  constructor
  · by_cases h : A + B = 0
    · have h' : B + A = 0 := by rw [add_comm]; exact h
      simp [h, h']
    · have h' : B + A ≠ 0 := fun hc => h (by rwa [add_comm] at hc)
      rw [if_pos h', if_pos h, add_comm B A, ← neg_div, neg_sub]
  · intro h
    have h' : B + A = 0 := by rw [add_comm]; exact h
    simp [h, h']

end BabaSpec

namespace BabaSpec

/-- **C1** (code bug in `masknulls`): with zero retained loci the pipeline
does not produce the claimed `D=0, Z=0, ABBA=0, BABA=0, n-loci=0` result:
the site-pruning step `masknulls` reduces the per-locus `nvarr` with `max`,
which on a zero-locus array is a zero-size reduction and raises `ValueError`
before any tensor is returned.  `masknulls` fails exactly on zero-locus
tensors (second conjunct: it is total on every non-empty tensor). -/
theorem c1_masknulls_zero_loci_raises :
    masknulls ([] : Tensor)
        = Except.error
            "zero-size array to reduction operation maximum which has no identity" ∧
    ∀ arr : Tensor, arr ≠ [] → ∃ out, masknulls arr = Except.ok out := by
  constructor
  · rfl
  · intro arr h
    match arr with
    | [] => exact absurd rfl h
    | l :: t => exact ⟨_, rfl⟩

theorem c1_witness : ∃ out, masknulls [[[(1 : ℚ)]]] = Except.ok out :=
  c1_masknulls_zero_loci_raises.2 [[[(1 : ℚ)]]] (by simp)

end BabaSpec

namespace BabaSpec

theorem sqrtOk_zero_iff {sq : ℚ → ℚ} {x : ℚ} (h : sqrtOk sq x) :
    sq x = 0 ↔ x = 0 := by
  constructor
  · intro h0
    rw [← h.2, h0]
    ring
  · intro h0
    subst h0
    exact pow_eq_zero_iff (two_ne_zero) |>.mp h.2

theorem signif5Row_z {sq : ℚ → ℚ} {arr : Tensor} {draws : ℕ → ℕ → ℕ}
    {nboots acol : ℕ}
    (hsq : sqrtOk sq (listVar (get_boots (sub5 arr acol) draws nboots))) :
    (signif5Row sq arr draws nboots acol).1.getD 5 none =
      if listVar (get_boots (sub5 arr acol) draws nboots) = 0 then none
      else some (|(prop_dstat (sub5 arr acol)).2.2|
        / sq (listVar (get_boots (sub5 arr acol) draws nboots))) := by
  unfold signif5Row
  dsimp only
  simp only [List.getD_cons_succ, List.getD_cons_zero]
  by_cases h : listVar (get_boots (sub5 arr acol) draws nboots) = 0
  · rw [if_pos h, if_neg]
    simp only [ne_eq, not_not]
    exact (sqrtOk_zero_iff hsq).mpr h
  · rw [if_neg h, if_pos]
    intro hc
    exact h ((sqrtOk_zero_iff hsq).mp hc)

/-- **C4** counterexample: on a concrete single-locus 5-taxon tensor the
bootstrap replicates are all equal, so the bootstrap std (row entry 2) is 0;
the claim then requires Z = 0, but `_get_signif_5` reports `np.NaN`
(modelled `none`) for the donor-branch row's Z entry. -/
theorem c4_counterexample :
    ((get_signif_5 (fun x => x) cexArr5 (fun _ _ _ => 0) 2).1.getD 0 []).getD 2
        (some 1) = some 0 ∧
    ((get_signif_5 (fun x => x) cexArr5 (fun _ _ _ => 0) 2).1.getD 0 []).getD 5
        (some 1) = none ∧
    (none : Option ℚ) ≠ some 0 := by
  refine ⟨?_, ?_, by simp⟩ <;>
    norm_num [get_signif_5, signif5Row, get_boots, prop_dstat, sub5, cexArr5,
      shape2, locusWidth, locusABBA, locusBABA, abbaSite, babaSite, fEntry,
      List.range_succ, listMean, listVar]

/-- **C4** (amended): the 4-taxon statistic row reports
`Z = |bootstrap mean| / bootstrap std` with `Z = 0` when the std is 0, as
claimed; but each donor-branch row of the 5-taxon variant reports
`Z = |full-data D| / bootstrap std` — the full-data statistic, not the
bootstrap mean — and `Z = NaN` (not 0) when the std is 0.  `sq` is the
square-root map used by `boots.std()`, constrained to be a genuine square
root at the variances that occur. -/
theorem c4_z_scores (sq : ℚ → ℚ) (arr4 arr5 : Tensor) (d4 : ℕ → ℕ → ℕ)
    (d5 : ℕ → ℕ → ℕ → ℕ) (nboots : ℕ)
    (hsq4 : sqrtOk sq (listVar (get_boots arr4 d4 nboots)))
    (hsq5 : ∀ bi acol, (bi, acol) ∈ ([(0, 2), (1, 3), (2, 4)] : List (ℕ × ℕ)) →
      sqrtOk sq (listVar (get_boots (sub5 arr5 acol) (d5 bi) nboots))) :
    ((get_signif_4 sq arr4 d4 nboots).1.getD 3 0 =
      if listVar (get_boots arr4 d4 nboots) = 0 then 0
      else |listMean (get_boots arr4 d4 nboots)|
        / sq (listVar (get_boots arr4 d4 nboots))) ∧
    (∀ bi acol, (bi, acol) ∈ ([(0, 2), (1, 3), (2, 4)] : List (ℕ × ℕ)) →
      ((get_signif_5 sq arr5 d5 nboots).1.getD bi []).getD 5 none =
        if listVar (get_boots (sub5 arr5 acol) (d5 bi) nboots) = 0 then none
        else some (|(prop_dstat (sub5 arr5 acol)).2.2|
          / sq (listVar (get_boots (sub5 arr5 acol) (d5 bi) nboots)))) := by
  constructor
  · unfold get_signif_4
    dsimp only
    simp only [List.getD_cons_succ, List.getD_cons_zero]
    by_cases h : listVar (get_boots arr4 d4 nboots) = 0
    · rw [if_pos h, if_neg]
      simp only [ne_eq, not_not]
      exact (sqrtOk_zero_iff hsq4).mpr h
    · rw [if_neg h, if_pos]
      intro hc
      exact h ((sqrtOk_zero_iff hsq4).mp hc)
  · intro bi acol hmem
    have hsq := hsq5 bi acol hmem
    simp only [List.mem_cons, List.mem_singleton, Prod.mk.injEq,
      List.not_mem_nil, or_false] at hmem
    rcases hmem with ⟨rfl, rfl⟩ | ⟨rfl, rfl⟩ | ⟨rfl, rfl⟩ <;>
    · unfold get_signif_5
      simp only [List.getD_cons_succ, List.getD_cons_zero]
      exact signif5Row_z hsq

end BabaSpec

namespace BabaSpec

theorem c4_witness :
    ((get_signif_4 (fun x => x) wArr4 (fun _ _ => 0) 2).1.getD 3 0 =
      if listVar (get_boots wArr4 (fun _ _ => 0) 2) = 0 then 0
      else |listMean (get_boots wArr4 (fun _ _ => 0) 2)|
        / (fun x => x) (listVar (get_boots wArr4 (fun _ _ => 0) 2))) ∧
    (∀ bi acol, (bi, acol) ∈ ([(0, 2), (1, 3), (2, 4)] : List (ℕ × ℕ)) →
      ((get_signif_5 (fun x => x) cexArr5 (fun _ _ _ => 0) 2).1.getD bi
          []).getD 5 none =
        if listVar (get_boots (sub5 cexArr5 acol) ((fun _ _ _ => 0) bi) 2) = 0
          then none
        else some (|(prop_dstat (sub5 cexArr5 acol)).2.2|
          / (fun x => x)
            (listVar (get_boots (sub5 cexArr5 acol) ((fun _ _ _ => 0) bi) 2)))) :=
  c4_z_scores (fun x => x) wArr4 cexArr5 (fun _ _ => 0) (fun _ _ _ => 0) 2
    (by
      norm_num [sqrtOk, listVar, listMean, get_boots, prop_dstat, wArr4,
        shape2, locusWidth, locusABBA, locusBABA, abbaSite, babaSite, fEntry,
        List.range_succ])
    (by
      intro bi acol h
      simp only [List.mem_cons, Prod.mk.injEq, List.not_mem_nil, or_false,
        List.mem_singleton] at h
      rcases h with ⟨rfl, rfl⟩ | ⟨rfl, rfl⟩ | ⟨rfl, rfl⟩ <;>
        norm_num [sqrtOk, listVar, listMean, get_boots, prop_dstat, sub5,
          cexArr5, shape2, locusWidth, locusABBA, locusBABA, abbaSite,
          babaSite, fEntry, List.range_succ])

end BabaSpec

namespace BabaSpec

/-- **C2.** For every 5-taxon test, `dstat` never returns a result:
`_get_signif_5` produces a 3-row, 6-column statistics array, but `dstat`
labels it with seven column names, and assembling the results DataFrame
always fails on the shape mismatch regardless of input. -/
theorem c2_five_taxon_never_returns (sq : ℚ → ℚ) (arr : Tensor)
    (draws : ℕ → ℕ → ℕ → ℕ) (nboots : ℕ) :
    (get_signif_5 sq arr draws nboots).1.length = 3 ∧
    (∀ r ∈ (get_signif_5 sq arr draws nboots).1, r.length = 6) ∧
    dstat5_columns.length = 7 ∧
    dstat5 sq arr draws nboots =
      Except.error "Shape of passed values does not match implied indices" := by
  refine ⟨rfl, ?_, rfl, rfl⟩
  intro r hr
  simp only [get_signif_5, List.mem_cons, List.not_mem_nil, or_false] at hr
  rcases hr with rfl | rfl | rfl <;> rfl

set_option maxRecDepth 8000 in
/-- **C10.** The Locus Parser preallocates a fixed capacity of exactly 300
sites per locus; the frequency row computed by `_reffreq2` has one entry
per aligned site, and writing it into the tensor succeeds without
truncation iff the locus has at most 300 sites — a longer row makes the
slice assignment raise instead of truncating. -/
theorem c10_site_capacity :
    lociArrSiteCap = 300 ∧
    (∀ (anc : List ℕ) (iseq : List (List ℕ)) (cd : List (ℕ × ℕ × ℕ)),
      (reffreq2 anc iseq cd).length = anc.length) ∧
    (∀ iseq : List ℚ, iseq.length ≤ 300 →
      lociRowWrite iseq =
        Except.ok (iseq ++ List.replicate (300 - iseq.length) 0)) ∧
    (∀ iseq : List ℚ, 300 < iseq.length →
      lociRowWrite iseq = Except.error "could not broadcast input array") := by
  refine ⟨rfl, ?_, ?_, ?_⟩
  · intro anc iseq cd
    simp [reffreq2]
  · intro iseq h
    unfold lociRowWrite sliceAssign lociArrSiteCap
    rw [if_pos (by simpa using h), List.drop_replicate]
  · intro iseq h
    unfold lociRowWrite sliceAssign lociArrSiteCap
    rw [if_neg (by simpa using Nat.not_le.mpr h)]

set_option maxRecDepth 8000 in
theorem c10_witness :
    (reffreq2 [65] [[84]] []).length = 1 ∧
    lociRowWrite (List.replicate 301 (1 : ℚ)) =
      Except.error "could not broadcast input array" ∧
    lociRowWrite [(1 : ℚ)] = Except.ok ([(1 : ℚ)] ++ List.replicate 299 0) := by
  refine ⟨c10_site_capacity.2.1 [65] [[84]] [], ?_, ?_⟩
  · exact c10_site_capacity.2.2.2 _ (by simp)
  · exact c10_site_capacity.2.2.1 [1] (by simp)

end BabaSpec

namespace BabaSpec

theorem batchCollect_fail_aux (outcomes : List JobOutcome) :
    ∀ order : List ℕ,
    (∀ i, i < outcomes.length →
      (∃ m, outcomes.getD i (Except.error "missing") = Except.error m) →
      i ∈ order) →
    (∀ j ∈ order, j < outcomes.length) →
    (∃ j msg, j < outcomes.length ∧
      outcomes.getD j (Except.error "missing") = Except.error msg) →
    ∀ resarr bootsarr : List (List ℚ),
      ∃ j msg, j < outcomes.length ∧
        outcomes.getD j (Except.error "missing") = Except.error msg ∧
        batchCollect outcomes order resarr bootsarr
          = Except.error (jobErrString j msg) := by
  intro order
  induction order with
  | nil =>
      intro hcov _ hfail _ _
      obtain ⟨j, msg, hj, herr⟩ := hfail
      exact absurd (hcov j hj ⟨msg, herr⟩) (List.not_mem_nil j)
  | cons j rest ih =>
      intro hcov hrange hfail resarr bootsarr
      cases h : outcomes.getD j (Except.error "missing") with
      | error msg =>
          refine ⟨j, msg, hrange j (List.mem_cons_self j rest), h, ?_⟩
          unfold batchCollect
          rw [h]
      | ok pr =>
          have step : batchCollect outcomes (j :: rest) resarr bootsarr
              = batchCollect outcomes rest (resarr.set j pr.1)
                (bootsarr.set j pr.2) := by
            simp only [batchCollect, h]
          rw [step]
          refine ih ?_ ?_ hfail (resarr.set j pr.1) (bootsarr.set j pr.2)
          · intro i hi hierr
            have := hcov i hi hierr
            rcases List.mem_cons.mp this with rfl | hm
            · obtain ⟨m, hm'⟩ := hierr
              rw [h] at hm'
              exact absurd hm' (by simp)
            · exact hm
          · intro i hi
            exact hrange i (List.mem_cons_of_mem j hi)

/-- **C5.** If some submitted job fails, the batch collection loop raises a
descriptive error naming a failing test's index together with its
exception, and no results table or boots matrix is returned (fail-fast):
this holds whenever every failing handle is eventually observed ready
(`hcov`; the loop polls until no handles remain). -/
theorem c5_fail_fast (outcomes : List JobOutcome) (order : List ℕ)
    (resarr bootsarr : List (List ℚ))
    (hcov : ∀ i, i < outcomes.length → i ∈ order)
    (hrange : ∀ j ∈ order, j < outcomes.length)
    (hfail : ∃ j msg, j < outcomes.length ∧
      outcomes.getD j (Except.error "missing") = Except.error msg) :
    (∃ j msg, j < outcomes.length ∧
      outcomes.getD j (Except.error "missing") = Except.error msg ∧
      batchCollect outcomes order resarr bootsarr
        = Except.error (jobErrString j msg)) ∧
    ∀ tables, batchCollect outcomes order resarr bootsarr ≠ Except.ok tables := by
  obtain ⟨j, msg, hj, herr, hrun⟩ :=
    batchCollect_fail_aux outcomes order (fun i hi _ => hcov i hi) hrange hfail
      resarr bootsarr
  refine ⟨⟨j, msg, hj, herr, hrun⟩, ?_⟩
  intro tables hok
  rw [hrun] at hok
  exact Except.noConfusion hok

/-- The concrete scenario of spec §8: five tests, test index 3 raises. -/
def wOutcomes : List JobOutcome :=
  [Except.ok ([0], [0]), Except.ok ([0], [0]), Except.ok ([0], [0]),
   Except.error "boom", Except.ok ([0], [0])]

theorem c5_witness :
    (∃ j msg, j < wOutcomes.length ∧
      wOutcomes.getD j (Except.error "missing") = Except.error msg ∧
      batchCollect wOutcomes [0, 1, 2, 3, 4] [] []
        = Except.error (jobErrString j msg)) ∧
    ∀ tables, batchCollect wOutcomes [0, 1, 2, 3, 4] [] [] ≠ Except.ok tables :=
  c5_fail_fast wOutcomes [0, 1, 2, 3, 4] [] [] (by decide) (by decide)
    ⟨3, "boom", by decide, rfl⟩

end BabaSpec

namespace BabaSpec

/-- **C6** counterexample: a batch invocation with a TaxonAssignment whose
key `px` is outside the allowed label set still submits its job to the
worker pool — contradicting the claim that the malformed test is rejected
before any job is submitted and no jobs run. -/
theorem c6_counterexample :
    (badTaxDict.map Prod.fst).any (fun i => !(allowed_names.contains i))
        = true ∧
    (batchSubmit "infile" [badTaxDict] 1 100).length = 1 ∧
    (batchSubmit "infile" [badTaxDict] 1 100).length ≠ 0 := by
  refine ⟨by decide, rfl, by decide⟩

/-- **C6** (amended): `batch` submits one job per test regardless of key
validity; a TaxonAssignment with a key outside {p1..p5} is rejected only
inside the submitted job, where `_loci_to_arr`'s key check raises
`IPyradError` (the batch then aborts through the fail-fast poll loop). -/
theorem c6_rejected_inside_job (handle : String) (taxdicts : List TaxDict)
    (mindict nboots : ℕ) :
    (batchSubmit handle taxdicts mindict nboots).length = taxdicts.length ∧
    (∀ td ∈ taxdicts,
      (td.map Prod.fst).any (fun i => !(allowed_names.contains i)) = true →
      taxdictKeyCheck td =
        Except.error "keys in taxdict must be named p1 through p4 or p5") := by
  constructor
  · simp [batchSubmit]
  · intro td _ h
    unfold taxdictKeyCheck
    rw [if_pos h]

theorem c6_witness :
    (batchSubmit "infile" [badTaxDict] 1 100).length = 1 ∧
    taxdictKeyCheck badTaxDict =
      Except.error "keys in taxdict must be named p1 through p4 or p5" := by
  have h := c6_rejected_inside_job "infile" [badTaxDict] 1 100
  exact ⟨h.1, h.2 badTaxDict (by decide) (by decide)⟩

end BabaSpec

namespace BabaSpec

/-- **C7** (code bug in the finalization of `batch`): with caller-supplied
names `["b", "c", "a"]` the results table is sorted to index
`["a", "b", "c"]` (rows reordered accordingly), but the boots matrix is
permuted by `order[k] = position of the k-th submitted name in the sorted
index` — the inverse of the permutation applied to the table — so its rows
no longer align with the table (row 0 carries the boots of `"c"`, not of
`"a"`).  The two-name example of spec §8 does align, because a two-element
permutation is its own inverse. -/
theorem c7_boots_misaligned :
    batchFinalize ["b", "c", "a"] [[10], [20], [30]] [[0], [1], [2]]
      = ((["a", "b", "c"], [[30], [10], [20]]), [[1], [2], [0]]) ∧
    specAlignedBoots ["b", "c", "a"] [[0], [1], [2]] = [[2], [0], [1]] ∧
    ([[1], [2], [0]] : List (List ℚ)) ≠ [[2], [0], [1]] ∧
    batchFinalize ["b", "a"] [[10], [20]] [[0], [1]]
      = ((["a", "b"], [[20], [10]]), [[1], [0]]) ∧
    specAlignedBoots ["b", "a"] [[0], [1]] = [[1], [0]] := by
  refine ⟨by decide, by decide, by decide, by decide, by decide⟩

end BabaSpec

namespace BabaSpec

/-- **C8** (code bug in `tree2tests`): on the rooted tree
`(((a,b,c),d),(e,f));` with no constraints, the enumeration reaches a
`p12parent` (the node `(a,b,c)`) with three children and raises
`ValueError` at `p1parent, p2parent = p12parent.children` — it does not
skip the node, contradicting the claim (and the function's own docstring
"Skips polytomies"). -/
theorem c8_polytomy_raises :
    tree2tests polyTree (fun _ => []) true
      = Except.error "ValueError: too many values to unpack" := by rfl

end BabaSpec

namespace BabaSpec

theorem c2_witness :
    (get_signif_5 (fun x => x) cexArr5 (fun _ _ _ => 0) 2).1.length = 3 ∧
    (∀ r ∈ (get_signif_5 (fun x => x) cexArr5 (fun _ _ _ => 0) 2).1,
      r.length = 6) ∧
    dstat5_columns.length = 7 ∧
    dstat5 (fun x => x) cexArr5 (fun _ _ _ => 0) 2 =
      Except.error "Shape of passed values does not match implied indices" :=
  c2_five_taxon_never_returns (fun x => x) cexArr5 (fun _ _ _ => 0) 2

theorem c9_witness :
    (prop_dstat (zeroArr4.map swapLocus)).2.2 = 0 ∧
    (prop_dstat zeroArr4).2.2 = 0 :=
  (c9_swap_negates_dstat zeroArr4).2 (by
    norm_num [prop_dstat, zeroArr4, shape2, locusWidth, locusABBA, locusBABA,
      abbaSite, babaSite, fEntry, List.range_succ])

end BabaSpec
